import Mathlib

/-!
Verification of the conversation-memory / rate-limiter / retry core of the
`wesback/aichatbot` service (`src/services/openai_service.py`), shallowly
embedded in Lean 4.  Timestamps are modelled as rationals, the conversation
store as a function from conversation ids to optional message lists (a Python
dict), and the external completion call as an oracle from attempt index to an
optional assistant message (`none` = the call raised).
-/

namespace AIChatbot

/-- A stored chat message: `{"role", "content", "timestamp"}` plus the
optional `user_name` metadata key that `get_chat_response` merges in. -/
structure Message where
  role : String
  content : String
  timestamp : ℚ
  user_name : Option String
deriving DecidableEq, Repr

/-- Python slice `l[i:]` for a possibly negative start index `i`:
a negative start counts from the end and is clamped at 0. -/
def pySliceFrom (l : List Message) (i : Int) : List Message :=
  if i < 0 then l.drop ((l.length + i).toNat) else l.drop i.toNat

/-- `ConversationMemory`: `max_history` bound plus the `_conversations`
dict, modelled as a function into `Option (List Message)` (`none` = key
absent). -/
structure ConversationMemory where
  max_history : Nat
  conversations : String → Option (List Message)

/-- The list-level body of `ConversationMemory.add_message`: append the new
message, and if the length now exceeds `max_history`, keep all system
messages and the Python slice `other_messages[-(max_history - len(system)):]`
of the rest. -/
def addToList (max_history : Nat) (conv : List Message) (msg : Message) :
    List Message :=
  let conv1 := conv ++ [msg]
  if max_history < conv1.length then
    let system_messages := conv1.filter (fun m => m.role == "system")
    let other_messages := conv1.filter (fun m => m.role != "system")
    system_messages ++
      pySliceFrom other_messages
        (-((max_history : Int) - (system_messages.length : Int)))
  else conv1

/-- `ConversationMemory.add_message(conversation_id, role, content, metadata)`.
`user_name` is the only metadata key the service ever passes. -/
def ConversationMemory.add_message (mem : ConversationMemory)
    (conversation_id role content : String) (timestamp : ℚ)
    (user_name : Option String := none) : ConversationMemory :=
  let conv := (mem.conversations conversation_id).getD []
  let msg : Message := ⟨role, content, timestamp, user_name⟩
  ⟨mem.max_history,
    fun cid =>
      if cid = conversation_id then some (addToList mem.max_history conv msg)
      else mem.conversations cid⟩

/-- `ConversationMemory.get_conversation`: `dict.get(id, [])`. -/
def ConversationMemory.get_conversation (mem : ConversationMemory)
    (conversation_id : String) : List Message :=
  (mem.conversations conversation_id).getD []

/-- `ConversationMemory.clear_conversation`: delete the key if present. -/
def ConversationMemory.clear_conversation (mem : ConversationMemory)
    (conversation_id : String) : ConversationMemory :=
  ⟨mem.max_history,
    fun cid => if cid = conversation_id then none else mem.conversations cid⟩

/-- `ConversationMemory.set_system_message`: drop all system messages and
insert a fresh one at the head. -/
def ConversationMemory.set_system_message (mem : ConversationMemory)
    (conversation_id content : String) (timestamp : ℚ) : ConversationMemory :=
  let conv := (mem.conversations conversation_id).getD []
  let conv1 := conv.filter (fun m => m.role != "system")
  let system_message : Message := ⟨"system", content, timestamp, none⟩
  ⟨mem.max_history,
    fun cid =>
      if cid = conversation_id then some (system_message :: conv1)
      else mem.conversations cid⟩

/-- Drop entries older than one minute: `[t for t in requests if now - t < 60]`. -/
def pruneRequests (requests : List ℚ) (now : ℚ) : List ℚ :=
  requests.filter (fun t => decide (now - t < 60))

/-- `RateLimiter`: request-per-minute bound plus recorded call timestamps. -/
structure RateLimiter where
  max_requests : Nat
  requests : List ℚ
deriving DecidableEq, Repr

/-- `RateLimiter.wait_if_needed` at instant `now`: returns the slept
duration and the updated limiter, or `none` when the Python code would raise
(`min([])` on an empty pruned window). -/
def RateLimiter.wait_if_needed (rl : RateLimiter) (now : ℚ) :
    Option (ℚ × RateLimiter) :=
  let reqs := pruneRequests rl.requests now
  if rl.max_requests ≤ reqs.length then
    match reqs.min? with
    | none => none
    | some oldest =>
      let wait_time := 60 - (now - oldest)
      some (if 0 < wait_time then wait_time else 0,
        ⟨rl.max_requests, reqs ++ [now]⟩)
  else
    some (0, ⟨rl.max_requests, reqs ++ [now]⟩)

/-- The default system message of `AzureOpenAIService`. -/
def default_system_message : String :=
  "You are a helpful AI assistant integrated with Microsoft Teams. " ++
  "Provide clear, concise, and professional responses. " ++
  "If you're unsure about something, be honest about it. " ++
  "Format your responses appropriately for Teams chat."

/-- Fallback returned when the last retry attempt fails. -/
def connection_error_message : String :=
  "I'm sorry, I'm having trouble connecting to my AI service right now. " ++
  "Please try again in a moment."

/-- Fallback returned when the retry loop finishes without returning. -/
def unexpected_error_message : String :=
  "I'm sorry, I encountered an unexpected error. Please try again."

/-- Python truthiness of the optional `system_message` argument
(`None` and `""` are falsy). -/
def pyStrOptTruthy : Option String → Bool
  | none => false
  | some s => !(s == "")

/-- Python `s or d` for an optional string `s`. -/
def pyStrOr : Option String → String → String
  | none, d => d
  | some s, d => if s == "" then d else s

/-- Result of `get_chat_response`: the returned string, the number of
external completion calls made, and the memory afterwards. -/
structure ChatResult where
  response : String
  calls : Nat
  memory : ConversationMemory

/-- The state of the memory just before the retry loop of
`get_chat_response`: set the system message when one is provided or the
conversation id is new, then append the user message (with the
`{"user_name": user_name}` metadata). -/
def pre_loop_memory (mem : ConversationMemory)
    (message conversation_id : String) (user_name system_message : Option String)
    (ts : ℚ) : ConversationMemory :=
  let mem1 :=
    if pyStrOptTruthy system_message
        || (mem.conversations conversation_id).isNone then
      mem.set_system_message conversation_id
        (pyStrOr system_message default_system_message) ts
    else mem
  mem1.add_message conversation_id "user" message ts user_name

/-- The retry loop `for attempt in range(max_retries)` of
`get_chat_response`, compiled with an explicit fuel `max_retries - attempt`.
`call attempt` is the external completion call (`none` = it raised).  On
success the assistant message is stored and returned; on the last attempt's
failure the apology is stored and returned; when the loop body never runs
the trailing `unexpected` string is returned. -/
def retry_loop (mem : ConversationMemory) (conversation_id : String)
    (call : Nat → Option String) (ts : ℚ) (max_retries : Nat) :
    Nat → Nat → ChatResult
  | attempt, 0 => ⟨unexpected_error_message, attempt, mem⟩
  | attempt, fuel + 1 =>
    match call attempt with
    | some assistant_message =>
      ⟨assistant_message, attempt + 1,
        mem.add_message conversation_id "assistant" assistant_message ts⟩
    | none =>
      if attempt = max_retries - 1 then
        ⟨connection_error_message, attempt + 1,
          mem.add_message conversation_id "assistant" connection_error_message ts⟩
      else
        retry_loop mem conversation_id call ts max_retries (attempt + 1) fuel

/-- `AzureOpenAIService.get_chat_response`, with the external completion
call abstracted as `call` and a single timestamp `ts` for the turn. -/
def get_chat_response (mem : ConversationMemory)
    (message conversation_id : String) (user_name system_message : Option String)
    (max_retries : Nat) (call : Nat → Option String) (ts : ℚ) : ChatResult :=
  retry_loop
    (pre_loop_memory mem message conversation_id user_name system_message ts)
    conversation_id call ts max_retries 0 max_retries

/-- A field value of the summary dict. -/
inductive SummaryValue where
  | natVal : Nat → SummaryValue
  | listVal : List String → SummaryValue
  | timeVal : ℚ → SummaryValue
  | noneVal : SummaryValue
deriving DecidableEq, Repr

/-- `list(set(msg.get("user_name", "Unknown") for msg in user_messages if
msg.get("user_name")))`: truthy user names, deduplicated. -/
def participant_names (user_messages : List Message) : List String :=
  ((user_messages.filterMap (fun m => m.user_name)).filter
    (fun s => !(s == ""))).dedup

/-- The body of `get_conversation_summary`, acting on the fetched
`conversation` list. -/
def summaryOfList (conversation : List Message) : List (String × SummaryValue) :=
  if conversation.isEmpty then
    [("message_count", .natVal 0), ("participants", .listVal [])]
  else
    let user_messages := conversation.filter (fun m => m.role == "user")
    let assistant_messages := conversation.filter (fun m => m.role == "assistant")
    [("message_count", .natVal conversation.length),
     ("user_messages", .natVal user_messages.length),
     ("assistant_messages", .natVal assistant_messages.length),
     ("participants", .listVal (participant_names user_messages)),
     ("start_time",
       match (conversation.map (fun m => m.timestamp)).min? with
       | some t => .timeVal t
       | none => .noneVal),
     ("last_activity",
       match (conversation.map (fun m => m.timestamp)).max? with
       | some t => .timeVal t
       | none => .noneVal)]

/-- `AzureOpenAIService.get_conversation_summary`, modelled as the ordered
field list of the returned dict. -/
def get_conversation_summary (mem : ConversationMemory)
    (conversation_id : String) : List (String × SummaryValue) :=
  summaryOfList (mem.get_conversation conversation_id)

/-- One recorded `add_message` call (C1 quantifies over sequences of these). -/
structure AddCall where
  role : String
  content : String
  timestamp : ℚ
  user_name : Option String
deriving DecidableEq, Repr

/-- Apply a sequence of `add_message` calls to one conversation. -/
def applyAdds (mem : ConversationMemory) (conversation_id : String)
    (calls : List AddCall) : ConversationMemory :=
  calls.foldl
    (fun m c => m.add_message conversation_id c.role c.content c.timestamp
      c.user_name) mem

/-- Number of system-role messages in a history. -/
def countSystem (l : List Message) : Nat :=
  (l.filter (fun m => m.role == "system")).length

/-- Number of system-role calls in an `add_message` sequence. -/
def systemCalls (calls : List AddCall) : Nat :=
  (calls.filter (fun c => c.role == "system")).length

/-! ### Basic lemmas about the store operations -/

theorem get_conversation_add_self (mem : ConversationMemory)
    (cid role content : String) (ts : ℚ) (u : Option String) :
    (mem.add_message cid role content ts u).get_conversation cid =
      addToList mem.max_history (mem.get_conversation cid)
        ⟨role, content, ts, u⟩ := by
  simp [ConversationMemory.add_message, ConversationMemory.get_conversation]

theorem get_conversation_set_system_self (mem : ConversationMemory)
    (cid content : String) (ts : ℚ) :
    (mem.set_system_message cid content ts).get_conversation cid =
      Message.mk "system" content ts none ::
        (mem.get_conversation cid).filter (fun m => m.role != "system") := by
  simp [ConversationMemory.set_system_message, ConversationMemory.get_conversation]

theorem max_history_add (mem : ConversationMemory)
    (cid role content : String) (ts : ℚ) (u : Option String) :
    (mem.add_message cid role content ts u).max_history = mem.max_history := rfl

theorem filter_sys_filter_ne (l : List Message) :
    (l.filter (fun m => m.role != "system")).filter
      (fun m => m.role == "system") = [] := by
  induction l with
  | nil => rfl
  | cons a l ih =>
    cases h : a.role == "system" <;>
      simp_all [List.filter_cons, bne]

/-! ### C5: setting the system message twice -/

/-- C5: for every conversation id and any prior history, calling
`set_system_message` twice (contents `c1` then `c2`) leaves exactly one
system message, whose content is the latest `c2`, at the head of the
conversation. -/
theorem set_system_message_twice (mem : ConversationMemory)
    (cid c1 c2 : String) (t1 t2 : ℚ) :
    (((mem.set_system_message cid c1 t1).set_system_message cid c2 t2).get_conversation
        cid).filter (fun m => m.role == "system") =
      [Message.mk "system" c2 t2 none] ∧
    (((mem.set_system_message cid c1 t1).set_system_message cid c2 t2).get_conversation
        cid).head? = some (Message.mk "system" c2 t2 none) := by
  rw [get_conversation_set_system_self]
  refine ⟨?_, rfl⟩
  rw [List.filter_cons_of_pos (by rfl), filter_sys_filter_ne]

/-! ### C6: clear followed by get is empty -/

/-- C6: for every conversation id and any prior state, `clear_conversation`
followed by `get_conversation` on that id yields the empty sequence. -/
theorem clear_then_get_empty (mem : ConversationMemory) (cid : String) :
    (mem.clear_conversation cid).get_conversation cid = [] := by
  simp [ConversationMemory.clear_conversation, ConversationMemory.get_conversation]

/-! ### C8: mutating one conversation leaves the others untouched -/

/-- C8: `add_message`, `set_system_message` and `clear_conversation` on
conversation `cidA` leave the stored history of every other id `cidB`
unchanged. -/
theorem mutating_ops_frame (mem : ConversationMemory)
    (cidA cidB role content : String) (ts : ℚ) (u : Option String)
    (hne : cidB ≠ cidA) :
    (mem.add_message cidA role content ts u).get_conversation cidB =
      mem.get_conversation cidB ∧
    (mem.set_system_message cidA content ts).get_conversation cidB =
      mem.get_conversation cidB ∧
    (mem.clear_conversation cidA).get_conversation cidB =
      mem.get_conversation cidB := by
  refine ⟨?_, ?_, ?_⟩ <;>
    simp [ConversationMemory.add_message, ConversationMemory.set_system_message,
      ConversationMemory.clear_conversation, ConversationMemory.get_conversation,
      hne]

/-- C8 witness: evaluation at a concrete store and distinct ids. -/
theorem mutating_ops_frame_witness :
    ((⟨10, fun c => if c = "b" then some [Message.mk "user" "hi" 0 none]
        else none⟩ : ConversationMemory).add_message "a" "user" "x" 1
          none).get_conversation "b" =
      (⟨10, fun c => if c = "b" then some [Message.mk "user" "hi" 0 none]
        else none⟩ : ConversationMemory).get_conversation "b" ∧
    ((⟨10, fun c => if c = "b" then some [Message.mk "user" "hi" 0 none]
        else none⟩ : ConversationMemory).set_system_message "a" "x"
          1).get_conversation "b" =
      (⟨10, fun c => if c = "b" then some [Message.mk "user" "hi" 0 none]
        else none⟩ : ConversationMemory).get_conversation "b" ∧
    ((⟨10, fun c => if c = "b" then some [Message.mk "user" "hi" 0 none]
        else none⟩ : ConversationMemory).clear_conversation
          "a").get_conversation "b" =
      (⟨10, fun c => if c = "b" then some [Message.mk "user" "hi" 0 none]
        else none⟩ : ConversationMemory).get_conversation "b" :=
  mutating_ops_frame _ "a" "b" "user" "x" 1 none (by decide)

/-! ### C9: clear_conversation is total and idempotent -/

/-- C9: clearing an id with no stored state is a no-op (and raises no
error, the operation being total), and clearing twice equals clearing
once. -/
theorem clear_conversation_total_idempotent (mem : ConversationMemory)
    (cid : String) :
    (mem.conversations cid = none → mem.clear_conversation cid = mem) ∧
    (mem.clear_conversation cid).clear_conversation cid =
      mem.clear_conversation cid := by
  constructor
  · intro h
    cases mem with
    | mk mh f =>
      simp only [ConversationMemory.clear_conversation, ConversationMemory.mk.injEq,
        true_and]
      funext c
      by_cases hc : c = cid
      · subst hc; exact (if_pos rfl).trans h.symm
      · exact if_neg hc
  · simp only [ConversationMemory.clear_conversation, ConversationMemory.mk.injEq,
      true_and]
    funext c
    by_cases hc : c = cid <;> simp [hc]

/-- C9 witness: clearing an absent id on a concrete empty store is a
no-op. -/
theorem clear_conversation_total_idempotent_witness :
    (⟨10, fun _ => none⟩ : ConversationMemory).conversations "c" = none ∧
    (⟨10, fun _ => none⟩ : ConversationMemory).clear_conversation "c" =
      (⟨10, fun _ => none⟩ : ConversationMemory) :=
  ⟨rfl, (clear_conversation_total_idempotent ⟨10, fun _ => none⟩ "c").1 rfl⟩

/-! ### C10: max_retries = 0 skips the loop entirely -/

/-- C10: with `max_retries = 0` the retry loop body never runs: zero
external calls are made, the memory is exactly the pre-loop memory (user
message appended, no assistant message), and the returned string is the
trailing `unexpected error` fallback, distinct from the connection-trouble
apology. -/
theorem get_chat_response_zero_retries (mem : ConversationMemory)
    (message cid : String) (user_name system_message : Option String)
    (call : Nat → Option String) (ts : ℚ) :
    get_chat_response mem message cid user_name system_message 0 call ts =
      ⟨unexpected_error_message, 0,
        pre_loop_memory mem message cid user_name system_message ts⟩ ∧
    unexpected_error_message ≠ connection_error_message :=
  ⟨rfl, by decide⟩

/-! ### C7: fields of the conversation summary -/

/-- C7 (amended): for a conversation id whose stored history is nonempty,
the summary carries exactly the six fields `message_count`, `user_messages`,
`assistant_messages`, `participants`, `start_time`, `last_activity`. -/
theorem summary_fields_of_nonempty (mem : ConversationMemory) (cid : String)
    (h : mem.get_conversation cid ≠ []) :
    (get_conversation_summary mem cid).map Prod.fst =
      ["message_count", "user_messages", "assistant_messages",
       "participants", "start_time", "last_activity"] := by
  have hne : (mem.get_conversation cid).isEmpty = false := by
    simpa [List.isEmpty_iff] using h
  simp [get_conversation_summary, summaryOfList, hne]

/-- C7 witness: a concrete store with one message has all six summary
fields. -/
theorem summary_fields_of_nonempty_witness :
    (get_conversation_summary
      ⟨10, fun c => if c = "c1" then some [Message.mk "user" "hi" 0 (some "Ann")]
          else none⟩ "c1").map Prod.fst =
      ["message_count", "user_messages", "assistant_messages",
       "participants", "start_time", "last_activity"] :=
  summary_fields_of_nonempty _ "c1" (by decide)

/-- C7 counterexample: for an id with no stored history the summary dict
carries only `message_count` and `participants`; in particular the claimed
`start_time` field is absent. -/
theorem summary_fields_empty_counterexample :
    (get_conversation_summary ⟨10, fun _ => none⟩ "c1").map Prod.fst =
      ["message_count", "participants"] ∧
    "start_time" ∉ (get_conversation_summary ⟨10, fun _ => none⟩ "c1").map
      Prod.fst := by
  constructor <;> decide

/-! ### C3: the sliding-window rate limiter -/

/-- C3: when the pruned 60-second window already holds at least
`max_requests` timestamps, the acquisition waits exactly
`60 - (now - oldest)` seconds — a positive delay that ends exactly when the
oldest call in the window turns 60 seconds old — and then records the new
call; when the window count is below the limit the call is recorded
immediately with zero delay. -/
theorem rate_limiter_acquire (rl : RateLimiter) (now : ℚ) :
    (∀ oldest : ℚ,
      rl.max_requests ≤ (pruneRequests rl.requests now).length →
      (pruneRequests rl.requests now).min? = some oldest →
      rl.wait_if_needed now =
        some (60 - (now - oldest),
          ⟨rl.max_requests, pruneRequests rl.requests now ++ [now]⟩) ∧
      0 < 60 - (now - oldest) ∧
      now + (60 - (now - oldest)) = oldest + 60) ∧
    ((pruneRequests rl.requests now).length < rl.max_requests →
      rl.wait_if_needed now =
        some (0, ⟨rl.max_requests, pruneRequests rl.requests now ++ [now]⟩)) := by
  constructor
  · intro oldest hlen hmin
    have hmem : oldest ∈ pruneRequests rl.requests now :=
      List.min?_mem (fun a b => min_choice a b) hmin
    have hlt : now - oldest < 60 := by
      have hp := List.of_mem_filter hmem
      simpa using hp
    have hw : (0 : ℚ) < 60 - (now - oldest) := by linarith
    refine ⟨?_, hw, by ring⟩
    simp only [RateLimiter.wait_if_needed]
    rw [if_pos hlen, hmin]
    simp only [if_pos hw]
  · intro h
    simp only [RateLimiter.wait_if_needed]
    rw [if_neg (not_le.mpr h)]

/-- C3 witness: a limiter with limit 1 and one 30-second-old call waits 30
seconds; a limiter with limit 2 in the same state records immediately. -/
theorem rate_limiter_acquire_witness :
    RateLimiter.wait_if_needed ⟨1, [0]⟩ 30 =
      some (60 - (30 - 0), ⟨1, pruneRequests [0] 30 ++ [30]⟩) ∧
    RateLimiter.wait_if_needed ⟨2, [0]⟩ 30 =
      some (0, ⟨2, pruneRequests [0] 30 ++ [30]⟩) := by
  have hp : pruneRequests [0] 30 = [0] := by
    simp [pruneRequests]; norm_num
  exact ⟨((rate_limiter_acquire ⟨1, [0]⟩ 30).1 0
      (by rw [show (⟨1, [0]⟩ : RateLimiter).requests = [0] from rfl, hp]; decide)
      (by rw [show (⟨1, [0]⟩ : RateLimiter).requests = [0] from rfl, hp]; rfl)).1,
    (rate_limiter_acquire ⟨2, [0]⟩ 30).2
      (by rw [show (⟨2, [0]⟩ : RateLimiter).requests = [0] from rfl, hp]; decide)⟩

/-! ### C2: the retry loop -/

theorem retry_loop_succ_eq (mem : ConversationMemory) (cid : String)
    (call : Nat → Option String) (ts : ℚ) (max_retries attempt fuel : Nat) :
    retry_loop mem cid call ts max_retries attempt (fuel + 1) =
      (match call attempt with
       | some assistant_message =>
         ⟨assistant_message, attempt + 1,
           mem.add_message cid "assistant" assistant_message ts⟩
       | none =>
         if attempt = max_retries - 1 then
           ⟨connection_error_message, attempt + 1,
             mem.add_message cid "assistant" connection_error_message ts⟩
         else
           retry_loop mem cid call ts max_retries (attempt + 1) fuel) := rfl

theorem retry_loop_all_fail (mem : ConversationMemory) (cid : String)
    (call : Nat → Option String) (ts : ℚ) (max_retries : Nat) :
    ∀ (fuel attempt : Nat), attempt + fuel = max_retries → 1 ≤ fuel →
    (∀ i, attempt ≤ i → i < max_retries → call i = none) →
    retry_loop mem cid call ts max_retries attempt fuel =
      ⟨connection_error_message, max_retries,
        mem.add_message cid "assistant" connection_error_message ts⟩ := by
  intro fuel
  induction fuel with
  | zero => intro attempt _ h1 _; omega
  | succ f ih =>
    intro attempt hsum _ hcall
    have hc : call attempt = none := hcall attempt le_rfl (by omega)
    rw [retry_loop_succ_eq, hc]
    cases f with
    | zero =>
      rw [if_pos (by omega)]
      have : attempt + 1 = max_retries := by omega
      rw [this]
    | succ f' =>
      rw [if_neg (by omega)]
      exact ih (attempt + 1) (by omega) (by omega)
        (fun i h1 h2 => hcall i (by omega) h2)

theorem retry_loop_first_success (mem : ConversationMemory) (cid : String)
    (call : Nat → Option String) (ts : ℚ) (max_retries : Nat) :
    ∀ (k attempt fuel : Nat) (v : String), attempt + fuel = max_retries →
    k < fuel →
    (∀ i, attempt ≤ i → i < attempt + k → call i = none) →
    call (attempt + k) = some v →
    retry_loop mem cid call ts max_retries attempt fuel =
      ⟨v, attempt + k + 1, mem.add_message cid "assistant" v ts⟩ := by
  intro k
  induction k with
  | zero =>
    intro attempt fuel v hsum hk _ hsucc
    obtain ⟨f, rfl⟩ : ∃ f, fuel = f + 1 := ⟨fuel - 1, by omega⟩
    rw [retry_loop_succ_eq, show call attempt = some v from by simpa using hsucc]
  | succ k ih =>
    intro attempt fuel v hsum hk hfail hsucc
    obtain ⟨f, rfl⟩ : ∃ f, fuel = f + 1 := ⟨fuel - 1, by omega⟩
    rw [retry_loop_succ_eq, hfail attempt le_rfl (by omega), if_neg (by omega)]
    have heq : attempt + 1 + k = attempt + (k + 1) := by omega
    have := ih (attempt + 1) f v (by omega) (by omega)
      (fun i h1 h2 => hfail i (by omega) (by omega))
      (by rw [heq]; exact hsucc)
    rw [this]
    have heq1 : attempt + 1 + k + 1 = attempt + (k + 1) + 1 := by omega
    rw [heq1]

/-- C2: with `max_retries ≥ 1`, if the external call fails on exactly the
first `k < max_retries` attempts and then succeeds with `v`, the service
returns `v` after exactly `k+1` external calls and stores `v` as the
assistant turn; if every external call fails, the fixed apology is returned
after exactly `max_retries` external calls and stored as the assistant turn
(and, the embedding being a total function, no exception reaches the
caller). -/
theorem get_chat_response_retry (mem : ConversationMemory)
    (message cid : String) (user_name system_message : Option String)
    (call : Nat → Option String) (ts : ℚ) (max_retries : Nat)
    (hmr : 1 ≤ max_retries) :
    (∀ (k : Nat) (v : String), k < max_retries →
      (∀ i, i < k → call i = none) → call k = some v →
      get_chat_response mem message cid user_name system_message max_retries
          call ts =
        ⟨v, k + 1,
          (pre_loop_memory mem message cid user_name system_message
            ts).add_message cid "assistant" v ts⟩) ∧
    ((∀ i, i < max_retries → call i = none) →
      get_chat_response mem message cid user_name system_message max_retries
          call ts =
        ⟨connection_error_message, max_retries,
          (pre_loop_memory mem message cid user_name system_message
            ts).add_message cid "assistant" connection_error_message ts⟩) := by
  constructor
  · intro k v hk hfail hsucc
    unfold get_chat_response
    have := retry_loop_first_success
      (pre_loop_memory mem message cid user_name system_message ts) cid call ts
      max_retries k 0 max_retries v (by omega) hk
      (fun i _ h2 => hfail i (by omega)) (by simpa using hsucc)
    simpa using this
  · intro hfail
    unfold get_chat_response
    exact retry_loop_all_fail
      (pre_loop_memory mem message cid user_name system_message ts) cid call ts
      max_retries max_retries 0 (by omega) hmr (fun i _ h2 => hfail i h2)

/-- C2 witness: with three retries, an external call that fails once then
succeeds yields the success after 2 calls; an always-failing call yields
the apology after 3 calls. -/
theorem get_chat_response_retry_witness :
    get_chat_response ⟨10, fun _ => none⟩ "Hello" "c1" none none 3
        (fun i => if i == 1 then some "Hi!" else none) 0 =
      ⟨"Hi!", 2,
        (pre_loop_memory ⟨10, fun _ => none⟩ "Hello" "c1" none none
          0).add_message "c1" "assistant" "Hi!" 0⟩ ∧
    get_chat_response ⟨10, fun _ => none⟩ "Hello" "c1" none none 3
        (fun _ => none) 0 =
      ⟨connection_error_message, 3,
        (pre_loop_memory ⟨10, fun _ => none⟩ "Hello" "c1" none none
          0).add_message "c1" "assistant" connection_error_message 0⟩ := by
  refine ⟨(get_chat_response_retry ⟨10, fun _ => none⟩ "Hello" "c1" none none
      (fun i => if i == 1 then some "Hi!" else none) 0 3 (by omega)).1 1 "Hi!"
      (by omega) ?_ rfl,
    (get_chat_response_retry ⟨10, fun _ => none⟩ "Hello" "c1" none none
      (fun _ => none) 0 3 (by omega)).2 (fun i _ => rfl)⟩
  intro i hi
  have : i = 0 := by omega
  rw [this]
  rfl

/-! ### C4: summary after the first successful turn -/

theorem max_history_set_system (mem : ConversationMemory) (cid c : String)
    (ts : ℚ) :
    (mem.set_system_message cid c ts).max_history = mem.max_history := rfl

theorem max_history_pre_loop (mem : ConversationMemory) (message cid : String)
    (u s : Option String) (ts : ℚ) :
    (pre_loop_memory mem message cid u s ts).max_history = mem.max_history := by
  simp only [pre_loop_memory]
  split <;> rfl

/-- C4 (amended): after a single successful `get_chat_response` on a fresh
conversation id (with `max_history ≥ 3`, so nothing is trimmed), the
summary reports `message_count = 3` — the auto-inserted system message plus
the user and assistant turns — with `user_messages = 1` and
`assistant_messages = 1`. -/
theorem first_turn_summary (mem : ConversationMemory) (message cid : String)
    (user_name system_message : Option String) (call : Nat → Option String)
    (v : String) (ts : ℚ) (max_retries : Nat)
    (hfresh : mem.conversations cid = none)
    (hmax : 3 ≤ mem.max_history)
    (hmr : 1 ≤ max_retries)
    (hcall : call 0 = some v) :
    (get_conversation_summary
        ((get_chat_response mem message cid user_name system_message
          max_retries call ts).memory) cid).lookup "message_count" =
      some (.natVal 3) ∧
    (get_conversation_summary
        ((get_chat_response mem message cid user_name system_message
          max_retries call ts).memory) cid).lookup "user_messages" =
      some (.natVal 1) ∧
    (get_conversation_summary
        ((get_chat_response mem message cid user_name system_message
          max_retries call ts).memory) cid).lookup "assistant_messages" =
      some (.natVal 1) := by
  obtain ⟨f, rfl⟩ : ∃ f, max_retries = f + 1 := ⟨max_retries - 1, by omega⟩
  have hconv0 : mem.get_conversation cid = [] := by
    simp [ConversationMemory.get_conversation, hfresh]
  have hmem : (get_chat_response mem message cid user_name system_message
      (f + 1) call ts).memory =
      (pre_loop_memory mem message cid user_name system_message
        ts).add_message cid "assistant" v ts := by
    unfold get_chat_response
    rw [retry_loop_succ_eq, hcall]
  have hcond : (pyStrOptTruthy system_message
      || (mem.conversations cid).isNone) = true := by
    rw [hfresh]; simp
  have hpre : (pre_loop_memory mem message cid user_name system_message
      ts).get_conversation cid =
      [⟨"system", pyStrOr system_message default_system_message, ts, none⟩,
       ⟨"user", message, ts, user_name⟩] := by
    simp only [pre_loop_memory]
    rw [if_pos hcond, get_conversation_add_self, max_history_set_system,
      get_conversation_set_system_self, hconv0]
    unfold addToList
    rw [if_neg (by simp; omega)]
    rfl
  have hfinal : ((pre_loop_memory mem message cid user_name system_message
      ts).add_message cid "assistant" v ts).get_conversation cid =
      [⟨"system", pyStrOr system_message default_system_message, ts, none⟩,
       ⟨"user", message, ts, user_name⟩,
       ⟨"assistant", v, ts, none⟩] := by
    rw [get_conversation_add_self, max_history_pre_loop, hpre]
    unfold addToList
    rw [if_neg (by simp; omega)]
    rfl
  have hs : get_conversation_summary
      ((get_chat_response mem message cid user_name system_message (f + 1)
        call ts).memory) cid =
      summaryOfList
        [⟨"system", pyStrOr system_message default_system_message, ts, none⟩,
         ⟨"user", message, ts, user_name⟩,
         ⟨"assistant", v, ts, none⟩] := by
    unfold get_conversation_summary
    rw [hmem, hfinal]
  rw [hs]
  exact ⟨rfl, rfl, rfl⟩

/-- C4 witness: a concrete fresh conversation and a call that succeeds
immediately. -/
theorem first_turn_summary_witness :
    (get_conversation_summary
        ((get_chat_response ⟨10, fun _ => none⟩ "Hello" "c1" (some "Ann") none
          3 (fun _ => some "Hi!") 0).memory) "c1").lookup "message_count" =
      some (.natVal 3) ∧
    (get_conversation_summary
        ((get_chat_response ⟨10, fun _ => none⟩ "Hello" "c1" (some "Ann") none
          3 (fun _ => some "Hi!") 0).memory) "c1").lookup "user_messages" =
      some (.natVal 1) ∧
    (get_conversation_summary
        ((get_chat_response ⟨10, fun _ => none⟩ "Hello" "c1" (some "Ann") none
          3 (fun _ => some "Hi!") 0).memory) "c1").lookup "assistant_messages" =
      some (.natVal 1) :=
  first_turn_summary ⟨10, fun _ => none⟩ "Hello" "c1" (some "Ann") none
    (fun _ => some "Hi!") "Hi!" 0 3 rfl (by decide) (by omega) rfl

/-- C4 counterexample: on the very scenario of the claim the reported
`message_count` is 3, not 2. -/
theorem first_turn_summary_counterexample :
    (get_conversation_summary
        ((get_chat_response ⟨10, fun _ => none⟩ "Hello" "c1" (some "Ann") none
          3 (fun _ => some "Hi!") 0).memory) "c1").lookup "message_count" =
      some (.natVal 3) ∧
    ¬ (get_conversation_summary
        ((get_chat_response ⟨10, fun _ => none⟩ "Hello" "c1" (some "Ann") none
          3 (fun _ => some "Hi!") 0).memory) "c1").lookup "message_count" =
      some (.natVal 2) := by
  constructor
  · rfl
  · intro h
    exact absurd (rfl.symm.trans h) (by decide)

/-! ### C1: the history bound under sequences of add_message calls -/

theorem bne_sys_eq_not (m : Message) :
    (m.role != "system") = !(m.role == "system") := rfl

theorem length_filter_sys_add (l : List Message) :
    countSystem l + (l.filter (fun m => m.role != "system")).length =
      l.length := by
  unfold countSystem
  induction l with
  | nil => rfl
  | cons a l ih =>
    rw [List.filter_cons, List.filter_cons, bne_sys_eq_not]
    cases h : a.role == "system" <;> simp [h] <;> omega

theorem pySliceFrom_length (l : List Message) (i : Int) :
    (pySliceFrom l i).length =
      l.length - (if i < 0 then (l.length + i).toNat else i.toNat) := by
  unfold pySliceFrom
  split <;> simp

theorem addToList_length_le (max_history : Nat) (conv : List Message)
    (msg : Message) (hsys : countSystem (conv ++ [msg]) < max_history) :
    (addToList max_history conv msg).length ≤ max_history := by
  unfold countSystem at hsys
  simp only [addToList]
  split
  case isTrue h =>
    rw [List.length_append, pySliceFrom_length]
    have hpart := length_filter_sys_add (conv ++ [msg])
    unfold countSystem at hpart
    have hneg : -((max_history : Int) -
        (((conv ++ [msg]).filter (fun m => m.role == "system")).length : Int))
        < 0 := by omega
    rw [if_pos hneg]
    omega
  case isFalse h => omega

theorem mem_addToList_of_system (max_history : Nat) (conv : List Message)
    (msg m : Message) (hm : m ∈ conv) (hrole : m.role = "system") :
    m ∈ addToList max_history conv msg := by
  simp only [addToList]
  split
  · exact List.mem_append_left _
      (List.mem_filter.mpr ⟨List.mem_append_left _ hm, by simp [hrole]⟩)
  · exact List.mem_append_left _ hm

theorem sys_false_of_mem_filter_ne (l : List Message) :
    ∀ m ∈ l.filter (fun m => m.role != "system"),
      (m.role == "system") = false := by
  intro m hm
  have h := List.of_mem_filter hm
  rw [bne_sys_eq_not] at h
  cases hh : m.role == "system"
  · rfl
  · rw [hh] at h; exact absurd h (by decide)

theorem filter_sys_pySliceFrom_eq_nil (l : List Message) (i : Int)
    (hl : ∀ m ∈ l, (m.role == "system") = false) :
    (pySliceFrom l i).filter (fun m => m.role == "system") = [] := by
  rw [List.filter_eq_nil]
  intro m hm
  have hml : m ∈ l := by
    unfold pySliceFrom at hm
    split at hm <;> exact List.mem_of_mem_drop hm
  simp [hl m hml]

theorem countSystem_addToList (max_history : Nat) (conv : List Message)
    (msg : Message) :
    countSystem (addToList max_history conv msg) =
      countSystem (conv ++ [msg]) := by
  unfold countSystem
  simp only [addToList]
  split
  · rw [List.filter_append,
      filter_sys_pySliceFrom_eq_nil _ _ (sys_false_of_mem_filter_ne _),
      List.filter_filter]
    simp
  · rfl

theorem countSystem_append_single (l : List Message) (msg : Message) :
    countSystem (l ++ [msg]) =
      countSystem l + (if msg.role == "system" then 1 else 0) := by
  unfold countSystem
  rw [List.filter_append, List.length_append]
  cases h : msg.role == "system" <;> simp [List.filter, h]

theorem systemCalls_cons (c : AddCall) (rest : List AddCall) :
    systemCalls (c :: rest) =
      (if c.role == "system" then 1 else 0) + systemCalls rest := by
  unfold systemCalls
  cases h : c.role == "system" <;> simp [List.filter_cons, h] <;> omega

theorem applyAdds_cons (mem : ConversationMemory) (cid : String) (c : AddCall)
    (rest : List AddCall) :
    applyAdds mem cid (c :: rest) =
      applyAdds (mem.add_message cid c.role c.content c.timestamp c.user_name)
        cid rest := rfl

/-- C1 (amended): along any sequence of `add_message` calls whose system-role
messages (those already stored plus those added by the sequence) stay
strictly below `max_history`, the stored history length never exceeds
`max_history`, and every system message present at the start — in
particular one installed by `set_system_message` — is still present at the
end.  (The quantification over all sequences covers every intermediate
state, each prefix being such a sequence.) -/
theorem add_message_seq_bounded (cid : String) (calls : List AddCall) :
    ∀ (mem : ConversationMemory),
    (mem.get_conversation cid).length ≤ mem.max_history →
    countSystem (mem.get_conversation cid) + systemCalls calls <
      mem.max_history →
    ((applyAdds mem cid calls).get_conversation cid).length ≤
      mem.max_history ∧
    ∀ m ∈ mem.get_conversation cid, m.role = "system" →
      m ∈ (applyAdds mem cid calls).get_conversation cid := by
  induction calls with
  | nil => intro mem h0 _; exact ⟨h0, fun m hm _ => hm⟩
  | cons c rest ih =>
    intro mem h0 hs
    rw [applyAdds_cons]
    have hget := get_conversation_add_self mem cid c.role c.content
      c.timestamp c.user_name
    have hproj : (⟨c.role, c.content, c.timestamp, c.user_name⟩ :
        Message).role = c.role := rfl
    rw [systemCalls_cons] at hs
    have hsys1 : countSystem (mem.get_conversation cid ++
        [⟨c.role, c.content, c.timestamp, c.user_name⟩]) < mem.max_history := by
      rw [countSystem_append_single, hproj]
      cases hcr : c.role == "system" <;> rw [hcr] at hs <;> simp_all <;> omega
    have hnew0 : ((mem.add_message cid c.role c.content c.timestamp
        c.user_name).get_conversation cid).length ≤ mem.max_history := by
      rw [hget]; exact addToList_length_le _ _ _ hsys1
    have hnewS : countSystem ((mem.add_message cid c.role c.content c.timestamp
        c.user_name).get_conversation cid) + systemCalls rest <
        mem.max_history := by
      rw [hget, countSystem_addToList, countSystem_append_single, hproj]
      cases hcr : c.role == "system" <;> rw [hcr] at hs <;> simp_all <;> omega
    obtain ⟨ihb, ihp⟩ := ih (mem.add_message cid c.role c.content c.timestamp
      c.user_name) hnew0 hnewS
    refine ⟨ihb, ?_⟩
    intro m hm hrole
    exact ihp m (by rw [hget]; exact mem_addToList_of_system _ _ _ _ hm hrole)
      hrole

/-- C1 witness: five non-system adds on an empty store with bound 3 leave
at most 3 messages. -/
theorem add_message_seq_bounded_witness :
    ((applyAdds ⟨3, fun _ => none⟩ "c1"
      [⟨"user", "m0", 0, none⟩, ⟨"assistant", "r0", 0, none⟩,
       ⟨"user", "m1", 0, none⟩, ⟨"assistant", "r1", 0, none⟩,
       ⟨"user", "m2", 0, none⟩]).get_conversation "c1").length ≤
      (⟨3, fun _ => none⟩ : ConversationMemory).max_history ∧
    ∀ m ∈ (⟨3, fun _ => none⟩ : ConversationMemory).get_conversation "c1",
      m.role = "system" →
      m ∈ ((applyAdds ⟨3, fun _ => none⟩ "c1"
        [⟨"user", "m0", 0, none⟩, ⟨"assistant", "r0", 0, none⟩,
         ⟨"user", "m1", 0, none⟩, ⟨"assistant", "r1", 0, none⟩,
         ⟨"user", "m2", 0, none⟩]).get_conversation "c1") :=
  add_message_seq_bounded "c1"
    [⟨"user", "m0", 0, none⟩, ⟨"assistant", "r0", 0, none⟩,
     ⟨"user", "m1", 0, none⟩, ⟨"assistant", "r1", 0, none⟩,
     ⟨"user", "m2", 0, none⟩] ⟨3, fun _ => none⟩ (by decide) (by decide)

/-- C1 counterexample: with `max_history = 1`, two `add_message` calls with
role `system` leave a stored history of length 2 — the claimed bound fails
for sequences that add system-role messages, because the trim slice
`other[-(max_history - len(system)):]` misbehaves when
`len(system) ≥ max_history`. -/
theorem add_message_seq_bounded_counterexample :
    ((applyAdds ⟨1, fun _ => none⟩ "c1"
      [⟨"system", "a", 0, none⟩, ⟨"system", "b", 0, none⟩]).get_conversation
        "c1").length = 2 ∧
    ¬ ((applyAdds ⟨1, fun _ => none⟩ "c1"
      [⟨"system", "a", 0, none⟩, ⟨"system", "b", 0, none⟩]).get_conversation
        "c1").length ≤ (⟨1, fun _ => none⟩ : ConversationMemory).max_history := by
  constructor <;> decide

end AIChatbot
